import Mathlib

/-!
Shallow embedding of the file-selection/transfer core (`file_manager.py`)
and the one boundary endpoint (`delete_files` in `app.py`) needed by the
claims, together with proofs settling the claims.

Modelling conventions:
* The three injectable collaborators (filesystem, file operations, random
  generator) are records of pure Lean functions.  `list_directory` returns
  `Option (List String)` (`none` = the port raises).  Each file-operation
  port call returns a `Bool` (`false` = the call raises).
* Python's `os.path.join(None, x)` (and any string join on `None`) raises
  `TypeError`; joining with the session's optional `current_directory` is
  modelled by `join_cur`, which yields `none` when the directory is `None`.
* The random port's `choice(sequence)` is modelled as a function of the
  sequence and the index of the call within the operation (test doubles in
  the repository rely exactly on this call-order view).
* Python exceptions are modelled as `none`/`false` results; mutations that
  happened before the raise persist in the returned state, matching Python
  object semantics.
* The unbounded `while True` numbering loop of `_generate_unique_name` is
  modelled with explicit fuel; claims about it carry the hypothesis that a
  free name exists within the fuel.
* The Python `set` used for the selection is modelled as a duplicate-free
  `List String`; iteration order over the set (unspecified in Python) is
  the list order.
-/

namespace FileManagerSpec

/-- Filesystem Port (`DefaultFilesystem` interface): directory enumeration,
existence/type checks, path joining.  `list_directory` returns `none` when
the underlying call raises (e.g. `FileNotFoundError`). -/
structure Filesystem where
  list_directory : String → Option (List String)
  exists_path : String → Bool
  is_directory : String → Bool
  join_path : String → String → String

/-- Transfer Port (`DefaultFileOperations` interface).  Each call returns
`true` on success and `false` when it raises. -/
structure FileOperations where
  copy_file : String → String → Bool
  copy_directory : String → String → Bool
  move : String → String → Bool
  delete_file : String → Bool
  delete_directory : String → Bool

/-- Random Name Source: `choice sequence k` is the element returned by the
`k`-th `choice` call of the current operation, given `sequence`. -/
structure RandomGenerator where
  choice : List String → Nat → String

/-- The 20 fixed adjectives (`FileManager.ADJECTIVES`). -/
def ADJECTIVES : List String :=
  ["grand", "petit", "beau", "ancien", "nouveau",
   "rouge", "bleu", "vert", "dore", "argente",
   "rapide", "calme", "brillant", "sombre", "clair",
   "joyeux", "paisible", "mysterieux", "magique", "eternel"]

/-- The 20 fixed nouns (`FileManager.NOUNS`). -/
def NOUNS : List String :=
  ["soleil", "lune", "etoile", "montagne", "riviere",
   "foret", "ocean", "desert", "prairie", "colline",
   "nuage", "vent", "tempete", "aurore", "crepuscule",
   "jardin", "cascade", "vallee", "plaine", "horizon"]

/-- Session state of the `FileManager` class: `current_directory`,
`entries`, and the selection set (as a duplicate-free list). -/
structure FileManager where
  current_directory : Option String
  entries : List String
  selection : List String
deriving DecidableEq

/-- Constructor `FileManager.__init__`: no directory loaded, no entries, empty selection. -/
def FileManager.init : FileManager :=
  { current_directory := none, entries := [], selection := [] }

/-- Model of `join_path(self._current_directory, name)`: joining with a `None`
directory raises `TypeError`, modelled as `none`. -/
def join_cur (fs : Filesystem) (cur : Option String) (name : String) : Option String :=
  cur.map (fun c => fs.join_path c name)

/-- Model of `FileManager._generate_random_name` at draw index `i`: the operation's
`2*i`-th `choice` call is on `ADJECTIVES`, the `2*i+1`-th on `NOUNS`, and the
two results are joined with `"_"`. -/
def generate_random_name (rnd : RandomGenerator) (i : Nat) : String :=
  rnd.choice ADJECTIVES (2 * i) ++ "_" ++ rnd.choice NOUNS (2 * i + 1)

/-- The `for _ in range(max_retries)` loop of `_generate_unique_name`,
drawing at index `i` with `r` tries left and `last` the last name drawn:
`Sum.inl name` is an early `return name` on a free name, `Sum.inr last` is
loop exhaustion, and the outer `none` is the `TypeError` raised by
`join_path` when `cur` is `None`. -/
def probe (fs : Filesystem) (rnd : RandomGenerator) (cur : Option String) :
    Nat → Nat → Option String → Option (String ⊕ Option String)
  | _, 0, last => some (Sum.inr last)
  | i, r + 1, _ =>
    let name := generate_random_name rnd i
    match join_cur fs cur name with
    | none => none
    | some path =>
      if fs.exists_path path then probe fs rnd cur (i + 1) r (some name)
      else some (Sum.inl name)

/-- The `while True` numbering loop of `_generate_unique_name`, given fuel:
appends `_counter` to `last`, returns the first numbered name whose joined
path does not exist, incrementing the counter otherwise.  `none` means the
fuel ran out (the Python loop would still be running) or `join_path` raised. -/
def number_name (fs : Filesystem) (cur : Option String) (last : String) :
    Nat → Nat → Option String
  | _, 0 => none
  | counter, fuel + 1 =>
    let numbered := last ++ "_" ++ toString counter
    match join_cur fs cur numbered with
    | none => none
    | some path =>
      if fs.exists_path path then number_name fs cur last (counter + 1) fuel
      else some numbered

/-- Model of `FileManager._generate_unique_name`: up to 10 probing draws, then the
numbering loop on the last (10th) drawn name starting at counter 1.
The `Sum.inr none` branch is unreachable because the probe count is 10. -/
def generate_unique_name (fs : Filesystem) (rnd : RandomGenerator)
    (cur : Option String) (fuel : Nat) : Option String :=
  match probe fs rnd cur 0 10 none with
  | none => none
  | some (Sum.inl name) => some name
  | some (Sum.inr none) => none
  | some (Sum.inr (some last)) => number_name fs cur last 1 fuel

/-- Model of `FileManager._get_destination_path`: a truthy (non-`None`, non-empty)
`destination` is returned verbatim; otherwise the generated unique name is
joined to the current directory. -/
def get_destination_path (fs : Filesystem) (rnd : RandomGenerator)
    (cur : Option String) (fuel : Nat) (destination : Option String) : Option String :=
  match destination with
  | some d =>
    if d = "" then (generate_unique_name fs rnd cur fuel).bind (join_cur fs cur)
    else some d
  | none => (generate_unique_name fs rnd cur fuel).bind (join_cur fs cur)

/-- One recorded port call of the Transfer/Filesystem ports (an attempted
call is recorded whether or not it succeeds). -/
inductive Effect
  | create_directory (path : String)
  | copy_file (source target : String)
  | copy_directory (source target : String)
  | move (source target : String)
  | delete_file (path : String)
  | delete_directory (path : String)
deriving DecidableEq

/-- Model of `FileManager.list_entries`: assigns `current_directory`, then calls the
port; a raising `list_directory` propagates (`none` result) with the state
mutated so far; on success `entries` is replaced, the selection cleared, and
a snapshot copy of `entries` returned. -/
def list_entries (fs : Filesystem) (st : FileManager) (directory : String) :
    Option (List String) × FileManager :=
  let st1 := { st with current_directory := some directory }
  match fs.list_directory directory with
  | none => (none, st1)
  | some l => (some l, { st1 with entries := l, selection := [] })

/-- Model of `FileManager.get_entries` (snapshot copy). -/
def get_entries (st : FileManager) : List String :=
  st.entries

/-- Model of `FileManager.select`: adds `entry` to the selection set iff it is a
member of `entries`, returning whether it was. -/
def select (st : FileManager) (entry : String) : Bool × FileManager :=
  if entry ∈ st.entries then
    (true, { st with selection :=
      if entry ∈ st.selection then st.selection else st.selection ++ [entry] })
  else (false, st)

/-- Model of `FileManager.deselect`: removes `entry` from the selection iff present,
returning whether a removal occurred. -/
def deselect (st : FileManager) (entry : String) : Bool × FileManager :=
  if entry ∈ st.selection then
    (true, { st with selection := st.selection.erase entry })
  else (false, st)

/-- Model of `FileManager.select_all`: `self._selection = set(self._entries)`. -/
def select_all (st : FileManager) : FileManager :=
  { st with selection := st.entries.dedup }

/-- Model of `FileManager.deselect_all`: `self._selection.clear()`. -/
def deselect_all (st : FileManager) : FileManager :=
  { st with selection := [] }

/-- Model of `FileManager.get_selection` (list of the selection set). -/
def get_selection (st : FileManager) : List String :=
  st.selection

/-- The per-entry loop of `copy_selection`: for each selected entry, compose
source and target, dispatch on `is_directory`, and call the Transfer Port;
a `false` port result is a raise that aborts the loop.  Returns the success
flag and the attempted calls in order. -/
def copy_loop (fs : Filesystem) (ops : FileOperations) (cur : Option String)
    (dest : String) : List String → Bool × List Effect
  | [] => (true, [])
  | e :: rest =>
    match join_cur fs cur e with
    | none => (false, [])
    | some source =>
      let target := fs.join_path dest e
      if fs.is_directory source then
        if ops.copy_directory source target then
          let res := copy_loop fs ops cur dest rest
          (res.1, Effect.copy_directory source target :: res.2)
        else (false, [Effect.copy_directory source target])
      else
        if ops.copy_file source target then
          let res := copy_loop fs ops cur dest rest
          (res.1, Effect.copy_file source target :: res.2)
        else (false, [Effect.copy_file source target])

/-- The per-entry loop of `move_selection` (always `move`). -/
def move_loop (fs : Filesystem) (ops : FileOperations) (cur : Option String)
    (dest : String) : List String → Bool × List Effect
  | [] => (true, [])
  | e :: rest =>
    match join_cur fs cur e with
    | none => (false, [])
    | some source =>
      let target := fs.join_path dest e
      if ops.move source target then
        let res := move_loop fs ops cur dest rest
        (res.1, Effect.move source target :: res.2)
      else (false, [Effect.move source target])

/-- The per-entry loop of `delete_selection` (dispatch on `is_directory`). -/
def delete_loop (fs : Filesystem) (ops : FileOperations) (cur : Option String) :
    List String → Bool × List Effect
  | [] => (true, [])
  | e :: rest =>
    match join_cur fs cur e with
    | none => (false, [])
    | some path =>
      if fs.is_directory path then
        if ops.delete_directory path then
          let res := delete_loop fs ops cur rest
          (res.1, Effect.delete_directory path :: res.2)
        else (false, [Effect.delete_directory path])
      else
        if ops.delete_file path then
          let res := delete_loop fs ops cur rest
          (res.1, Effect.delete_file path :: res.2)
        else (false, [Effect.delete_file path])

/-- The post-transfer cleanup `for entry in list(self._selection):
self._entries.remove(entry)`.  Python's `list.remove` removes the first
occurrence and raises `ValueError` when the name is absent; the result is
the success flag and the entries list as mutated so far. -/
def remove_entries : List String → List String → Bool × List String
  | es, [] => (true, es)
  | es, n :: ns =>
    if n ∈ es then remove_entries (es.erase n) ns else (false, es)

/-- Model of `FileManager.copy_selection`: resolve (and if needed create) the
destination, then copy each selected entry.  Result is the returned
destination path (`none` = an exception propagated), the state after the
call, and the attempted port calls. -/
def copy_selection (fs : Filesystem) (ops : FileOperations) (rnd : RandomGenerator)
    (fuel : Nat) (st : FileManager) (destination : Option String) :
    Option String × FileManager × List Effect :=
  match get_destination_path fs rnd st.current_directory fuel destination with
  | none => (none, st, [])
  | some dest_path =>
    let created : List Effect :=
      if fs.exists_path dest_path then [] else [Effect.create_directory dest_path]
    let res := copy_loop fs ops st.current_directory dest_path st.selection
    (if res.1 then some dest_path else none, st, created ++ res.2)

/-- Model of `FileManager.move_selection`: as `copy_selection` but moving, then
removing the moved names from `entries` and clearing the selection. -/
def move_selection (fs : Filesystem) (ops : FileOperations) (rnd : RandomGenerator)
    (fuel : Nat) (st : FileManager) (destination : Option String) :
    Option String × FileManager × List Effect :=
  match get_destination_path fs rnd st.current_directory fuel destination with
  | none => (none, st, [])
  | some dest_path =>
    let created : List Effect :=
      if fs.exists_path dest_path then [] else [Effect.create_directory dest_path]
    let res := move_loop fs ops st.current_directory dest_path st.selection
    if res.1 then
      let rem := remove_entries st.entries st.selection
      if rem.1 then
        (some dest_path, { st with entries := rem.2, selection := [] }, created ++ res.2)
      else (none, { st with entries := rem.2 }, created ++ res.2)
    else (none, st, created ++ res.2)

/-- Model of `FileManager.delete_selection`: delete each selected entry, then remove
the names from `entries` and clear the selection.  The Python method has no
`return` statement, so a normal completion returns `None` (`some ()`). -/
def delete_selection (fs : Filesystem) (ops : FileOperations) (st : FileManager) :
    Option Unit × FileManager × List Effect :=
  let res := delete_loop fs ops st.current_directory st.selection
  if res.1 then
    let rem := remove_entries st.entries st.selection
    if rem.1 then (some (), { st with entries := rem.2, selection := [] }, res.2)
    else (none, { st with entries := rem.2 }, res.2)
  else (none, st, res.2)

/-- The `DELETE /api/files/delete` handler (`delete_files` in `app.py`):
short-circuits on an empty selection; otherwise binds
`errors = file_manager.delete_selection()` — which is Python `None`, not a
list — and then evaluates `len(selection) - len(errors)`, so `len(None)`
raises `TypeError` (`none`) even when every per-entry delete succeeded.
Result: `some (success, deleted_count, errors)` for a JSON response, `none`
for a propagated exception, paired with the session state after the call. -/
def delete_files (fs : Filesystem) (ops : FileOperations) (st : FileManager) :
    Option (Bool × Nat × List String) × FileManager :=
  let selection := get_selection st
  if selection.isEmpty then (some (true, 0, []), st)
  else
    match delete_selection fs ops st with
    | (_, st1, _) => (none, st1)

lemma join_cur_some (fs : Filesystem) (c name : String) :
    join_cur fs (some c) name = some (fs.join_path c name) := rfl

/-- One probing step on a colliding draw: move to the next draw with one
fewer try, remembering the drawn name. -/
lemma probe_step (fs : Filesystem) (rnd : RandomGenerator) (c : String)
    (i r : Nat) (last : Option String)
    (h : fs.exists_path (fs.join_path c (generate_random_name rnd i)) = true) :
    probe fs rnd (some c) i (r + 1) last =
      probe fs rnd (some c) (i + 1) r (some (generate_random_name rnd i)) := by
  simp [probe, join_cur_some, h]

/-- One probing step on a free draw: early return of the drawn name. -/
lemma probe_found (fs : Filesystem) (rnd : RandomGenerator) (c : String)
    (i r : Nat) (last : Option String)
    (h : fs.exists_path (fs.join_path c (generate_random_name rnd i)) = false) :
    probe fs rnd (some c) i (r + 1) last =
      some (Sum.inl (generate_random_name rnd i)) := by
  simp [probe, join_cur_some, h]

/-- If the first `m` draws from `i0` collide and draw `i0 + m` is free
(within the remaining tries), the probing loop returns draw `i0 + m`. -/
lemma probe_first_free (fs : Filesystem) (rnd : RandomGenerator) (c : String) :
    ∀ (m i0 r : Nat) (last : Option String), m < r →
      (∀ d, d < m →
        fs.exists_path (fs.join_path c (generate_random_name rnd (i0 + d))) = true) →
      fs.exists_path (fs.join_path c (generate_random_name rnd (i0 + m))) = false →
      probe fs rnd (some c) i0 r last = some (Sum.inl (generate_random_name rnd (i0 + m)))
  | 0, i0, r, last, hlt, _, hfree => by
    obtain ⟨r', rfl⟩ := Nat.exists_eq_succ_of_ne_zero (Nat.pos_iff_ne_zero.mp hlt)
    rw [probe_found fs rnd c i0 r' last (by simpa using hfree)]
    simp
  | m + 1, i0, r, last, hlt, hcoll, hfree => by
    obtain ⟨r', rfl⟩ := Nat.exists_eq_succ_of_ne_zero
      (Nat.pos_iff_ne_zero.mp (Nat.lt_of_le_of_lt (Nat.zero_le _) hlt))
    have h0 : fs.exists_path (fs.join_path c (generate_random_name rnd i0)) = true := by
      simpa using hcoll 0 (Nat.succ_pos m)
    rw [probe_step fs rnd c i0 r' last h0]
    have ih := probe_first_free fs rnd c m (i0 + 1) r'
      (some (generate_random_name rnd i0))
      (Nat.lt_of_succ_lt_succ hlt)
      (fun d hd => by
        have := hcoll (d + 1) (Nat.succ_lt_succ hd)
        simpa [Nat.add_assoc, Nat.add_comm 1 d] using this)
      (by
        have : i0 + 1 + m = i0 + (m + 1) := by omega
        rw [this]
        exact hfree)
    have harith : i0 + (m + 1) = i0 + 1 + m := by omega
    rw [harith]
    exact ih

/-- If all `r ≥ 1` remaining draws collide, the probing loop exhausts and
reports the last drawn name, draw `i0 + (r - 1)`. -/
lemma probe_exhaust (fs : Filesystem) (rnd : RandomGenerator) (c : String) :
    ∀ (r i0 : Nat) (last : Option String), 0 < r →
      (∀ d, d < r →
        fs.exists_path (fs.join_path c (generate_random_name rnd (i0 + d))) = true) →
      probe fs rnd (some c) i0 r last =
        some (Sum.inr (some (generate_random_name rnd (i0 + (r - 1)))))
  | 0, _, _, hpos, _ => absurd hpos (Nat.lt_irrefl 0)
  | 1, i0, last, _, hcoll => by
    have h0 : fs.exists_path (fs.join_path c (generate_random_name rnd i0)) = true := by
      simpa using hcoll 0 Nat.one_pos
    rw [probe_step fs rnd c i0 0 last h0]
    simp [probe]
  | r + 2, i0, last, _, hcoll => by
    have h0 : fs.exists_path (fs.join_path c (generate_random_name rnd i0)) = true := by
      simpa using hcoll 0 (Nat.succ_pos _)
    rw [probe_step fs rnd c i0 (r + 1) last h0]
    have ih := probe_exhaust fs rnd c (r + 1) (i0 + 1)
      (some (generate_random_name rnd i0)) (Nat.succ_pos r)
      (fun d hd => by
        have := hcoll (d + 1) (Nat.succ_lt_succ hd)
        simpa [Nat.add_assoc, Nat.add_comm 1 d] using this)
    have harith : i0 + (r + 2 - 1) = i0 + 1 + (r + 1 - 1) := by omega
    rw [harith]
    exact ih

/-- The numbering loop returns `last_k` for the first free counter `k`,
given enough fuel. -/
lemma number_name_first_free (fs : Filesystem) (c last : String) :
    ∀ (fuel counter k : Nat), counter ≤ k → k < counter + fuel →
      (∀ j, counter ≤ j → j < k →
        fs.exists_path (fs.join_path c (last ++ "_" ++ toString j)) = true) →
      fs.exists_path (fs.join_path c (last ++ "_" ++ toString k)) = false →
      number_name fs (some c) last counter fuel = some (last ++ "_" ++ toString k)
  | 0, counter, k, hle, hlt, _, _ => by omega
  | fuel + 1, counter, k, hle, hlt, hcoll, hfree => by
    rcases Nat.eq_or_lt_of_le hle with heq | hstrict
    · subst heq
      simp [number_name, join_cur_some, hfree]
    · have h0 : fs.exists_path (fs.join_path c (last ++ "_" ++ toString counter)) = true :=
        hcoll counter (Nat.le_refl counter) hstrict
      simp only [number_name, join_cur_some, h0, if_true]
      exact number_name_first_free fs c last fuel (counter + 1) k hstrict (by omega)
        (fun j hj hjk => hcoll j (Nat.le_of_succ_le hj) hjk) hfree

/-- C1: `_generate_unique_name` draws up to 10 candidates and returns the
first whose joined path does not exist; if all 10 collide it numbers the
10th (last) drawn candidate `_1`, `_2`, … and returns the first free
numbered name. -/
theorem generate_unique_name_retry_then_numerize (fs : Filesystem)
    (rnd : RandomGenerator) (c : String) (fuel : Nat) :
    (∀ i, i < 10 →
      (∀ j, j < i →
        fs.exists_path (fs.join_path c (generate_random_name rnd j)) = true) →
      fs.exists_path (fs.join_path c (generate_random_name rnd i)) = false →
      generate_unique_name fs rnd (some c) fuel = some (generate_random_name rnd i))
    ∧ (∀ k, 1 ≤ k → k ≤ fuel →
      (∀ i, i < 10 →
        fs.exists_path (fs.join_path c (generate_random_name rnd i)) = true) →
      (∀ j, j < k → 1 ≤ j →
        fs.exists_path
          (fs.join_path c (generate_random_name rnd 9 ++ "_" ++ toString j)) = true) →
      fs.exists_path
        (fs.join_path c (generate_random_name rnd 9 ++ "_" ++ toString k)) = false →
      generate_unique_name fs rnd (some c) fuel =
        some (generate_random_name rnd 9 ++ "_" ++ toString k)) := by
  constructor
  · intro i hi hcoll hfree
    have hp := probe_first_free fs rnd c i 0 10 none hi
      (fun d hd => by simpa using hcoll d hd) (by simpa using hfree)
    simp [generate_unique_name, hp]
  · intro k hk hfuel hcoll hnum hfree
    have hp := probe_exhaust fs rnd c 10 0 none (by omega)
      (fun d hd => by simpa using hcoll d hd)
    have h9 : (0 + (10 - 1) : Nat) = 9 := by omega
    rw [h9] at hp
    have hn := number_name_first_free fs c (generate_random_name rnd 9) fuel 1 k hk
      (by omega) (fun j hj hjk => hnum j hjk hj) hfree
    simp [generate_unique_name, hp, hn]

/-- Whatever `remove_entries` returns is drawn from the initial entries. -/
lemma remove_entries_mem_subset :
    ∀ (sel es : List String) (x : String), x ∈ (remove_entries es sel).2 → x ∈ es
  | [], _, _, h => h
  | n :: ns, es, x, h => by
    by_cases hn : n ∈ es
    · simp only [remove_entries, hn, if_true] at h
      exact List.mem_of_mem_erase (remove_entries_mem_subset ns (es.erase n) x h)
    · simpa only [remove_entries, hn, if_false] using h

/-- The cleanup loop never raises when the removed names are distinct and
all present. -/
lemma remove_entries_ok :
    ∀ (sel es : List String), sel.Nodup → (∀ x ∈ sel, x ∈ es) →
      (remove_entries es sel).1 = true
  | [], _, _, _ => rfl
  | n :: ns, es, hnd, hsub => by
    have hn : n ∈ es := hsub n (List.mem_cons_self n ns)
    simp only [remove_entries, hn, if_true]
    refine remove_entries_ok ns (es.erase n) hnd.of_cons (fun x hx => ?_)
    have hne : x ≠ n := by
      intro hxn
      subst hxn
      exact (List.nodup_cons.mp hnd).1 hx
    exact (List.mem_erase_of_ne hne).mpr (hsub x (List.mem_cons_of_mem _ hx))

/-- After a successful cleanup over duplicate-free entries, every removed
name is absent. -/
lemma remove_entries_absent :
    ∀ (sel es : List String), es.Nodup → sel.Nodup → (∀ x ∈ sel, x ∈ es) →
      ∀ x ∈ sel, x ∉ (remove_entries es sel).2
  | [], _, _, _, _, x, hx => absurd hx (List.not_mem_nil x)
  | n :: ns, es, hes, hnd, hsub, x, hx => by
    have hn : n ∈ es := hsub n (List.mem_cons_self n ns)
    simp only [remove_entries, hn, if_true]
    rcases List.mem_cons.mp hx with rfl | hx'
    · intro hmem
      exact hes.not_mem_erase (remove_entries_mem_subset ns (es.erase x) x hmem)
    · refine remove_entries_absent ns (es.erase n) (hes.erase n) hnd.of_cons
        (fun y hy => ?_) x hx'
      have hne : y ≠ n := by
        intro hyn
        subst hyn
        exact (List.nodup_cons.mp hnd).1 hy
      exact (List.mem_erase_of_ne hne).mpr (hsub y (List.mem_cons_of_mem _ hy))

/-- C2: after `move_selection` or `delete_selection` completes with every
per-entry port call succeeding, every previously selected name is absent
from `entries` and the selection is empty.  The hypotheses are the session
well-formedness facts of any reachable state: the entries list enumerates
distinct children, and the selection is a set of entries. -/
theorem move_delete_shrink_entries_clear_selection (fs : Filesystem)
    (ops : FileOperations) (rnd : RandomGenerator) (fuel : Nat)
    (st : FileManager) (destination : Option String)
    (hes : st.entries.Nodup) (hnd : st.selection.Nodup)
    (hsub : ∀ x ∈ st.selection, x ∈ st.entries) :
    (∀ d st' tr, move_selection fs ops rnd fuel st destination = (some d, st', tr) →
      (∀ x ∈ st.selection, x ∉ st'.entries) ∧ st'.selection = [])
    ∧ (∀ u st' tr, delete_selection fs ops st = (some u, st', tr) →
      (∀ x ∈ st.selection, x ∉ st'.entries) ∧ st'.selection = []) := by
  have hrok := remove_entries_ok st.selection st.entries hnd hsub
  have habs := remove_entries_absent st.selection st.entries hes hnd hsub
  constructor
  · intro d st' tr h
    unfold move_selection at h
    cases hdp : get_destination_path fs rnd st.current_directory fuel destination with
    | none => rw [hdp] at h; simp at h
    | some dp =>
      rw [hdp] at h
      simp only at h
      by_cases hok : (move_loop fs ops st.current_directory dp st.selection).1 = true
      · rw [hok, hrok] at h
        simp only [if_true, Prod.mk.injEq] at h
        obtain ⟨-, h2, -⟩ := h
        subst h2
        exact ⟨habs, rfl⟩
      · rw [Bool.not_eq_true] at hok
        rw [hok] at h
        simp at h
  · intro u st' tr h
    unfold delete_selection at h
    simp only at h
    by_cases hok : (delete_loop fs ops st.current_directory st.selection).1 = true
    · rw [hok, hrok] at h
      simp only [if_true, Prod.mk.injEq] at h
      obtain ⟨-, h2, -⟩ := h
      subst h2
      exact ⟨habs, rfl⟩
    · rw [Bool.not_eq_true] at hok
      rw [hok] at h
      simp at h

/-- C3: `copy_selection` never touches `entries` or `selection` — in
particular, after a call in which every per-entry port call succeeds, both
are identical to their values before the call. -/
theorem copy_selection_nondestructive (fs : Filesystem) (ops : FileOperations)
    (rnd : RandomGenerator) (fuel : Nat) (st : FileManager)
    (destination : Option String) :
    (copy_selection fs ops rnd fuel st destination).2.1.entries = st.entries ∧
    (copy_selection fs ops rnd fuel st destination).2.1.selection = st.selection := by
  unfold copy_selection
  cases hdp : get_destination_path fs rnd st.current_directory fuel destination <;> simp

/-- C4 (amended): when the Filesystem Port's `list_directory` raises during
a load, `entries` and `selection` are unchanged, but `current_directory` has
already been assigned the requested directory — the assignment precedes the
port call, so it is not gated on a successful load. -/
theorem list_entries_failure_assigns_current_directory (fs : Filesystem)
    (st : FileManager) (directory : String)
    (h : fs.list_directory directory = none) :
    (list_entries fs st directory).1 = none ∧
    (list_entries fs st directory).2.current_directory = some directory ∧
    (list_entries fs st directory).2.entries = st.entries ∧
    (list_entries fs st directory).2.selection = st.selection := by
  unfold list_entries
  rw [h]
  exact ⟨rfl, rfl, rfl, rfl⟩

/-- C6: `select x` succeeds (returns `true` and puts `x` in the selection,
adding nothing else) iff `x ∈ entries`; otherwise it returns `false` and
changes nothing; re-selecting an already-selected name is a no-op returning
`true`. -/
theorem select_membership_gated (st : FileManager) (x : String) :
    (x ∈ st.entries →
      (select st x).1 = true ∧ x ∈ (select st x).2.selection ∧
      (∀ y, y ∈ (select st x).2.selection ↔ y ∈ st.selection ∨ y = x) ∧
      (select st x).2.entries = st.entries ∧
      (select st x).2.current_directory = st.current_directory)
    ∧ (x ∉ st.entries → (select st x).1 = false ∧ (select st x).2 = st)
    ∧ (x ∈ st.entries → x ∈ st.selection →
      (select st x).1 = true ∧ (select st x).2 = st) := by
  refine ⟨fun hx => ?_, fun hx => ?_, fun hx hsel => ?_⟩
  · by_cases hsel : x ∈ st.selection
    · refine ⟨by simp [select, hx], by simp [select, hx, hsel], ?_, by simp [select, hx], by simp [select, hx]⟩
      intro y
      simp only [select, hx, if_true, hsel]
      constructor
      · exact fun h => Or.inl h
      · rintro (h | rfl)
        · exact h
        · exact hsel
    · refine ⟨by simp [select, hx], by simp [select, hx, hsel], ?_, by simp [select, hx], by simp [select, hx]⟩
      intro y
      simp [select, hx, hsel, List.mem_append]
  · simp [select, hx]
  · simp [select, hx, hsel]

/-- C7: a successful load replaces `entries` with exactly the port's
listing, clears the selection, sets `current_directory` to the loaded
directory, and returns a snapshot of the new entries. -/
theorem list_entries_success_resets (fs : Filesystem) (st : FileManager)
    (d : String) (l : List String) (h : fs.list_directory d = some l) :
    (list_entries fs st d).1 = some l ∧
    (list_entries fs st d).2 =
      { current_directory := some d, entries := l, selection := [] } := by
  unfold list_entries
  rw [h]
  exact ⟨rfl, rfl⟩

/-- C9: destination resolution returns a provided non-empty destination
verbatim; with no (or an empty) explicit destination it joins a generated
unique name to the current directory; and in `copy_selection` and
`move_selection` a resolved destination that does not exist is created as a
directory before any per-entry transfer (the creation heads the list of
attempted port calls). -/
theorem destination_resolution_and_creation (fs : Filesystem)
    (ops : FileOperations) (rnd : RandomGenerator) (fuel : Nat) :
    (∀ cur d, d ≠ "" → get_destination_path fs rnd cur fuel (some d) = some d)
    ∧ (∀ cur, get_destination_path fs rnd cur fuel none =
        (generate_unique_name fs rnd cur fuel).bind (join_cur fs cur))
    ∧ (∀ cur, get_destination_path fs rnd cur fuel (some "") =
        (generate_unique_name fs rnd cur fuel).bind (join_cur fs cur))
    ∧ (∀ st destination dpath,
        get_destination_path fs rnd st.current_directory fuel destination = some dpath →
        fs.exists_path dpath = false →
        (copy_selection fs ops rnd fuel st destination).2.2 =
          Effect.create_directory dpath ::
            (copy_loop fs ops st.current_directory dpath st.selection).2 ∧
        (move_selection fs ops rnd fuel st destination).2.2 =
          Effect.create_directory dpath ::
            (move_loop fs ops st.current_directory dpath st.selection).2) := by
  refine ⟨fun cur d hd => by simp [get_destination_path, hd], fun cur => rfl,
    fun cur => by simp [get_destination_path], ?_⟩
  intro st destination dpath hres hex
  constructor
  · unfold copy_selection
    rw [hres]
    simp [hex]
  · unfold move_selection
    rw [hres]
    simp only [hex, Bool.false_eq_true, if_false]
    by_cases hok : (move_loop fs ops st.current_directory dpath st.selection).1 = true
    · rw [hok]
      by_cases hrok : (remove_entries st.entries st.selection).1 = true
      · rw [hrok]
        simp
      · rw [Bool.not_eq_true] at hrok
        rw [hrok]
        simp
    · rw [Bool.not_eq_true] at hok
      rw [hok]
      simp

/-- C10: with no successful load yet (`current_directory = None`) and no
explicit destination, destination resolution reaches the `TypeError` from
`join_path(None, name)` inside `_generate_unique_name`: it produces an
error, not a destination path, and so do `copy_selection` and
`move_selection`. -/
theorem transfer_before_load_is_error (fs : Filesystem) (ops : FileOperations)
    (rnd : RandomGenerator) (fuel : Nat) :
    generate_unique_name fs rnd none fuel = none
    ∧ get_destination_path fs rnd none fuel none = none
    ∧ (∀ st, st.current_directory = none →
        (copy_selection fs ops rnd fuel st none).1 = none ∧
        (move_selection fs ops rnd fuel st none).1 = none) := by
  refine ⟨rfl, rfl, fun st hcur => ⟨?_, ?_⟩⟩
  · unfold copy_selection
    rw [hcur]
    rfl
  · unfold move_selection
    rw [hcur]
    rfl

/-- Session well-formedness: the selection is a set (duplicate-free) of
entry names. -/
def wf (st : FileManager) : Prop :=
  st.selection.Nodup ∧ ∀ x ∈ st.selection, x ∈ st.entries

/-- The session states reachable from a fresh `FileManager` through its
public operations, with arbitrary arguments, fuel, and port outcomes
(failed operations leave their partially-mutated state, which is still
reachable). -/
inductive Reachable (fs : Filesystem) (ops : FileOperations) (rnd : RandomGenerator) :
    FileManager → Prop
  | init : Reachable fs ops rnd FileManager.init
  | load (st : FileManager) (d : String) :
      Reachable fs ops rnd st → Reachable fs ops rnd (list_entries fs st d).2
  | select_step (st : FileManager) (x : String) :
      Reachable fs ops rnd st → Reachable fs ops rnd (select st x).2
  | deselect_step (st : FileManager) (x : String) :
      Reachable fs ops rnd st → Reachable fs ops rnd (deselect st x).2
  | select_all_step (st : FileManager) :
      Reachable fs ops rnd st → Reachable fs ops rnd (select_all st)
  | deselect_all_step (st : FileManager) :
      Reachable fs ops rnd st → Reachable fs ops rnd (deselect_all st)
  | copy_step (st : FileManager) (dest : Option String) (fuel : Nat) :
      Reachable fs ops rnd st →
      Reachable fs ops rnd (copy_selection fs ops rnd fuel st dest).2.1
  | move_step (st : FileManager) (dest : Option String) (fuel : Nat) :
      Reachable fs ops rnd st →
      Reachable fs ops rnd (move_selection fs ops rnd fuel st dest).2.1
  | delete_step (st : FileManager) :
      Reachable fs ops rnd st →
      Reachable fs ops rnd (delete_selection fs ops st).2.1

lemma wf_list_entries (fs : Filesystem) (st : FileManager) (d : String)
    (h : wf st) : wf (list_entries fs st d).2 := by
  unfold list_entries
  cases hdir : fs.list_directory d with
  | none => exact h
  | some l => exact ⟨List.nodup_nil, by simp⟩

lemma wf_select (st : FileManager) (x : String) (h : wf st) : wf (select st x).2 := by
  unfold select
  by_cases hx : x ∈ st.entries
  · by_cases hsel : x ∈ st.selection
    · simpa [hx, hsel] using h
    · simp only [hx, if_true, hsel, if_false]
      refine ⟨?_, ?_⟩
      · simpa [List.nodup_append] using ⟨h.1, hsel⟩
      · intro y hy
        rcases List.mem_append.mp hy with hy' | hy'
        · exact h.2 y hy'
        · rw [List.mem_singleton.mp hy']
          exact hx
  · simpa [hx] using h

lemma wf_deselect (st : FileManager) (x : String) (h : wf st) : wf (deselect st x).2 := by
  unfold deselect
  by_cases hsel : x ∈ st.selection
  · simp only [hsel, if_true]
    exact ⟨h.1.erase x, fun y hy => h.2 y (List.mem_of_mem_erase hy)⟩
  · simpa [hsel] using h

lemma wf_select_all (st : FileManager) : wf (select_all st) :=
  ⟨List.nodup_dedup st.entries, fun _ hx => List.mem_dedup.mp hx⟩

lemma wf_deselect_all (st : FileManager) : wf (deselect_all st) :=
  ⟨List.nodup_nil, by simp [deselect_all]⟩

lemma wf_copy_selection (fs : Filesystem) (ops : FileOperations)
    (rnd : RandomGenerator) (fuel : Nat) (st : FileManager) (dest : Option String)
    (h : wf st) : wf (copy_selection fs ops rnd fuel st dest).2.1 := by
  have he := (copy_selection_nondestructive fs ops rnd fuel st dest).1
  have hs := (copy_selection_nondestructive fs ops rnd fuel st dest).2
  exact ⟨hs ▸ h.1, fun x hx => he ▸ h.2 x (hs ▸ hx)⟩

lemma wf_move_selection (fs : Filesystem) (ops : FileOperations)
    (rnd : RandomGenerator) (fuel : Nat) (st : FileManager) (dest : Option String)
    (h : wf st) : wf (move_selection fs ops rnd fuel st dest).2.1 := by
  have hrok := remove_entries_ok st.selection st.entries h.1 h.2
  unfold move_selection
  cases hdp : get_destination_path fs rnd st.current_directory fuel dest with
  | none => exact h
  | some dp =>
    simp only
    by_cases hok : (move_loop fs ops st.current_directory dp st.selection).1 = true
    · rw [hok, hrok]
      exact ⟨List.nodup_nil, by simp⟩
    · rw [Bool.not_eq_true] at hok
      rw [hok]
      exact h

lemma wf_delete_selection (fs : Filesystem) (ops : FileOperations)
    (st : FileManager) (h : wf st) : wf (delete_selection fs ops st).2.1 := by
  have hrok := remove_entries_ok st.selection st.entries h.1 h.2
  unfold delete_selection
  simp only
  by_cases hok : (delete_loop fs ops st.current_directory st.selection).1 = true
  · rw [hok, hrok]
    exact ⟨List.nodup_nil, by simp⟩
  · rw [Bool.not_eq_true] at hok
    rw [hok]
    exact h

/-- Every reachable session state is well-formed. -/
lemma reachable_wf (fs : Filesystem) (ops : FileOperations) (rnd : RandomGenerator)
    (st : FileManager) (h : Reachable fs ops rnd st) : wf st := by
  induction h with
  | init => exact ⟨List.nodup_nil, by simp [FileManager.init]⟩
  | load st d _ ih => exact wf_list_entries fs st d ih
  | select_step st x _ ih => exact wf_select st x ih
  | deselect_step st x _ ih => exact wf_deselect st x ih
  | select_all_step st _ _ => exact wf_select_all st
  | deselect_all_step st _ _ => exact wf_deselect_all st
  | copy_step st dest fuel _ ih => exact wf_copy_selection fs ops rnd fuel st dest ih
  | move_step st dest fuel _ ih => exact wf_move_selection fs ops rnd fuel st dest ih
  | delete_step st _ ih => exact wf_delete_selection fs ops st ih

/-- C8: immediately after any Selection Manager operation (`load`,
`select`, `deselect`, `select_all`, `deselect_all`) completes on any
reachable session state, with any argument, the selection is a subset of
the entries. -/
theorem selection_subset_entries_invariant (fs : Filesystem)
    (ops : FileOperations) (rnd : RandomGenerator) (st : FileManager)
    (h : Reachable fs ops rnd st) :
    (∀ d, ∀ x ∈ (list_entries fs st d).2.selection, x ∈ (list_entries fs st d).2.entries)
    ∧ (∀ e, ∀ x ∈ (select st e).2.selection, x ∈ (select st e).2.entries)
    ∧ (∀ e, ∀ x ∈ (deselect st e).2.selection, x ∈ (deselect st e).2.entries)
    ∧ (∀ x ∈ (select_all st).selection, x ∈ (select_all st).entries)
    ∧ (∀ x ∈ (deselect_all st).selection, x ∈ (deselect_all st).entries) :=
  ⟨fun d => (reachable_wf fs ops rnd _ (Reachable.load st d h)).2,
   fun e => (reachable_wf fs ops rnd _ (Reachable.select_step st e h)).2,
   fun e => (reachable_wf fs ops rnd _ (Reachable.deselect_step st e h)).2,
   (reachable_wf fs ops rnd _ (Reachable.select_all_step st h)).2,
   (reachable_wf fs ops rnd _ (Reachable.deselect_all_step st h)).2⟩

/-! Concrete test doubles, mirroring the repository's mocks, used to
instantiate the theorems at explicit inputs. -/

/-- Path join of the repository's `MockFilesystem` (`"/".join`). -/
def mock_join (a b : String) : String := a ++ "/" ++ b

/-- Deterministic random source replaying a fixed value list and falling
back to the sequence's head, as the repository's `MockRandomGenerator`. -/
def replay_choice (values : List String) : RandomGenerator :=
  { choice := fun seq k => values.getD k (seq.headD "") }

/-- A random source with no scripted values. -/
def rndW : RandomGenerator := replay_choice []

/-- A filesystem double with one directory `/d` holding two files and a
subdirectory. -/
def fsW : Filesystem :=
  { list_directory := fun d => if d = "/d" then some ["a.txt", "b.txt", "sub"] else none
    exists_path := fun p => (["/d", "/d/a.txt", "/d/b.txt", "/d/sub"] : List String).contains p
    is_directory := fun p => p == "/d" || p == "/d/sub"
    join_path := mock_join }

/-- A filesystem double whose `list_directory` always raises. -/
def fsFail : Filesystem :=
  { list_directory := fun _ => none
    exists_path := fun _ => false
    is_directory := fun _ => false
    join_path := mock_join }

/-- A transfer port on which every call succeeds. -/
def opsOK : FileOperations :=
  { copy_file := fun _ _ => true
    copy_directory := fun _ _ => true
    move := fun _ _ => true
    delete_file := fun _ => true
    delete_directory := fun _ => true }

/-- A transfer port on which deleting `/d/a.txt` raises. -/
def opsFailFirstDelete : FileOperations :=
  { opsOK with delete_file := fun p => p != "/d/a.txt" }

/-- A loaded session on `/d` with the two files selected. -/
def stW : FileManager :=
  { current_directory := some "/d"
    entries := ["a.txt", "b.txt", "sub"]
    selection := ["a.txt", "b.txt"] }

/-- The scripted draws of the repository's retry tests:
`nom0_test0 … nom9_test9`. -/
def valsC1 : List String :=
  ["nom0", "test0", "nom1", "test1", "nom2", "test2", "nom3", "test3",
   "nom4", "test4", "nom5", "test5", "nom6", "test6", "nom7", "test7",
   "nom8", "test8", "nom9", "test9"]

/-- Random source replaying the ten colliding draws. -/
def rndC1 : RandomGenerator := replay_choice valsC1

/-- Filesystem of `test_increment_number_until_unique`: all ten drawn names
exist under `/source`, as do `nom9_test9_1` and `nom9_test9_2`. -/
def fsC1 : Filesystem :=
  { list_directory := fun d => if d = "/source" then some ["file1.txt"] else none
    exists_path := fun p =>
      (["/source/nom0_test0", "/source/nom1_test1", "/source/nom2_test2",
        "/source/nom3_test3", "/source/nom4_test4", "/source/nom5_test5",
        "/source/nom6_test6", "/source/nom7_test7", "/source/nom8_test8",
        "/source/nom9_test9", "/source/nom9_test9_1", "/source/nom9_test9_2",
        "/source", "/source/file1.txt"] : List String).contains p
    is_directory := fun p => p == "/source"
    join_path := mock_join }

/-- Filesystem double on which only the first drawn name collides. -/
def fsC1b : Filesystem :=
  { fsC1 with exists_path := fun p =>
      (["/source/nom0_test0", "/source", "/source/file1.txt"] : List String).contains p }

/-- Witness for C1: on the repository's own retry scenarios, the resolved
name is the numbered 10th draw `nom9_test9_3` when all ten draws and the
first two numbered names collide, and the first free draw `nom1_test1`
when only the first draw collides. -/
theorem generate_unique_name_retry_then_numerize_witness :
    generate_unique_name fsC1 rndC1 (some "/source") 5 =
      some (generate_random_name rndC1 9 ++ "_" ++ toString 3)
    ∧ generate_unique_name fsC1b rndC1 (some "/source") 5 =
      some (generate_random_name rndC1 1) :=
  ⟨(generate_unique_name_retry_then_numerize fsC1 rndC1 "/source" 5).2 3
      (by decide) (by decide) (by decide) (by decide) (by decide),
   (generate_unique_name_retry_then_numerize fsC1b rndC1 "/source" 5).1 1
      (by decide) (by decide) (by decide)⟩

/-- C5 (code bug): with `/d/a.txt` and `/d/b.txt` selected, (i) a failing
delete on the first entry makes `delete_selection` raise, (ii) the second
entry is never attempted (the only attempted call is the failing one), and
(iii) even when every per-entry delete succeeds, `delete_selection` returns
Python `None` rather than a list of errors, so the boundary's
`delete_files` raises `TypeError` at `len(errors)` instead of reporting
`deleted_count` and `errors`. -/
theorem delete_selection_error_collection_bug :
    (delete_selection fsW opsFailFirstDelete stW).1 = none
    ∧ (delete_selection fsW opsFailFirstDelete stW).2.2 = [Effect.delete_file "/d/a.txt"]
    ∧ (delete_selection fsW opsOK stW).1 = some ()
    ∧ (delete_files fsW opsOK stW).1 = none := by
  decide

/-- Counterexample for C4: on a fresh session, a load whose
`list_directory` raises still changes `current_directory` from `none` to
the requested directory, contradicting "unchanged on failure". -/
theorem list_entries_failure_changes_current_directory :
    (list_entries fsFail FileManager.init "/d").1 = none
    ∧ FileManager.init.current_directory = none
    ∧ (list_entries fsFail FileManager.init "/d").2.current_directory = some "/d" := by
  decide

/-- Witness for the amended C4 at a concrete failing load. -/
theorem list_entries_failure_assigns_current_directory_witness :
    (list_entries fsFail FileManager.init "/d").1 = none ∧
    (list_entries fsFail FileManager.init "/d").2.current_directory = some "/d" ∧
    (list_entries fsFail FileManager.init "/d").2.entries = FileManager.init.entries ∧
    (list_entries fsFail FileManager.init "/d").2.selection = FileManager.init.selection :=
  list_entries_failure_assigns_current_directory fsFail FileManager.init "/d" rfl

/-- Witness for C2 at a concrete successful move of the two selected files. -/
theorem move_delete_shrink_entries_clear_selection_witness :
    (∀ x ∈ stW.selection,
      x ∉ (FileManager.mk (some "/d") ["sub"] []).entries)
    ∧ (FileManager.mk (some "/d") ["sub"] []).selection = [] :=
  (move_delete_shrink_entries_clear_selection fsW opsOK rndW 1 stW (some "/dest")
      (by decide) (by decide) (by decide)).1 "/dest"
    (FileManager.mk (some "/d") ["sub"] [])
    [Effect.create_directory "/dest", Effect.move "/d/a.txt" "/dest/a.txt",
     Effect.move "/d/b.txt" "/dest/b.txt"]
    (by decide)

/-- Witness for C6: selecting a present entry succeeds and adds exactly it;
selecting an absent entry fails and changes nothing. -/
theorem select_membership_gated_witness :
    ((select stW "a.txt").1 = true ∧ "a.txt" ∈ (select stW "a.txt").2.selection ∧
      (∀ y, y ∈ (select stW "a.txt").2.selection ↔ y ∈ stW.selection ∨ y = "a.txt") ∧
      (select stW "a.txt").2.entries = stW.entries ∧
      (select stW "a.txt").2.current_directory = stW.current_directory)
    ∧ ((select stW "zzz").1 = false ∧ (select stW "zzz").2 = stW) :=
  ⟨(select_membership_gated stW "a.txt").1 (by decide),
   (select_membership_gated stW "zzz").2.1 (by decide)⟩

/-- Witness for C7 at a concrete successful load over a dirty session. -/
theorem list_entries_success_resets_witness :
    (list_entries fsW stW "/d").1 = some ["a.txt", "b.txt", "sub"] ∧
    (list_entries fsW stW "/d").2 =
      { current_directory := some "/d", entries := ["a.txt", "b.txt", "sub"],
        selection := [] } :=
  list_entries_success_resets fsW stW "/d" ["a.txt", "b.txt", "sub"] (by decide)

/-- A concrete reachable state: fresh session, load `/d`, select `a.txt`. -/
def stReach : FileManager :=
  (select (list_entries fsW FileManager.init "/d").2 "a.txt").2

/-- Witness for C8 at the concrete reachable state `stReach`. -/
theorem selection_subset_entries_invariant_witness :
    (∀ d, ∀ x ∈ (list_entries fsW stReach d).2.selection,
      x ∈ (list_entries fsW stReach d).2.entries)
    ∧ (∀ e, ∀ x ∈ (select stReach e).2.selection, x ∈ (select stReach e).2.entries)
    ∧ (∀ e, ∀ x ∈ (deselect stReach e).2.selection, x ∈ (deselect stReach e).2.entries)
    ∧ (∀ x ∈ (select_all stReach).selection, x ∈ (select_all stReach).entries)
    ∧ (∀ x ∈ (deselect_all stReach).selection, x ∈ (deselect_all stReach).entries) :=
  selection_subset_entries_invariant fsW opsOK rndW stReach
    (Reachable.select_step _ "a.txt"
      (Reachable.load FileManager.init "/d" Reachable.init))

/-- Witness for C9: an explicit destination is returned verbatim, and the
non-existing destination `/dest` is created first, before the transfers. -/
theorem destination_resolution_and_creation_witness :
    get_destination_path fsW rndW (some "/d") 1 (some "/dest") = some "/dest"
    ∧ ((copy_selection fsW opsOK rndW 1 stW (some "/dest")).2.2 =
        Effect.create_directory "/dest" ::
          (copy_loop fsW opsOK stW.current_directory "/dest" stW.selection).2 ∧
      (move_selection fsW opsOK rndW 1 stW (some "/dest")).2.2 =
        Effect.create_directory "/dest" ::
          (move_loop fsW opsOK stW.current_directory "/dest" stW.selection).2) :=
  ⟨(destination_resolution_and_creation fsW opsOK rndW 1).1 (some "/d") "/dest" (by decide),
   (destination_resolution_and_creation fsW opsOK rndW 1).2.2.2 stW (some "/dest") "/dest"
     (by decide) (by decide)⟩

/-- Witness for C10: on a fresh session (no load yet), copy and move with
no explicit destination reach an error. -/
theorem transfer_before_load_is_error_witness :
    (copy_selection fsW opsOK rndW 1 FileManager.init none).1 = none ∧
    (move_selection fsW opsOK rndW 1 FileManager.init none).1 = none :=
  (transfer_before_load_is_error fsW opsOK rndW 1).2.2 FileManager.init rfl

end FileManagerSpec
